import Mathlib

/-!
Verification of the constant-product AMM program (solana-amm).

The development shallowly embeds the Rust sources:
  - src/swap.rs       : the swap calculator `calc_swap` and `SwapDirection`,
    together with its arithmetic dependency
    `spl_math::checked_ceil_div::CheckedCeilDiv for u128`;
  - src/state.rs      : the `Vault` record and its borsh byte layout;
  - src/error.rs      : the `AmmError` taxonomy;
  - src/processor.rs  : `process_init_market` and `process_swap`.

Machine integers are embedded as `Nat` with explicit `2 ^ 64` and `2 ^ 128`
bounds at every operation where Rust performs a checked operation or a
narrowing.  Fallible steps return `Option` or `Except`.  Collaborator calls
(`invoke`, `invoke_signed`) are recorded as an ordered effect list; their
external failure modes abort the whole invocation in the runtime and issue
no further effects, so the effect list of the embedding is the list of
requests issued by the program itself, in order.
-/

/-- Ceiling division on naturals, `(a + b - 1) / b`.  This is the arithmetic
spine of `checked_ceil_div`; it agrees with Mathlib `Nat.instCeilDiv`. -/
def ceil_div (a b : Nat) : Nat := (a + b - 1) / b

/-- Checked u128 multiplication: `u128::checked_mul`. -/
def u128_checked_mul (a b : Nat) : Option Nat :=
  if a * b < 2 ^ 128 then some (a * b) else none

/-- Checked u128 addition: `u128::checked_add`. -/
def u128_checked_add (a b : Nat) : Option Nat :=
  if a + b < 2 ^ 128 then some (a + b) else none

/-- Checked subtraction, `checked_sub` on an unsigned integer type. -/
def checked_sub (a b : Nat) : Option Nat :=
  if b ≤ a then some (a - b) else none

/-- Checked division, `checked_div`: fails exactly on a zero divisor. -/
def checked_div (a b : Nat) : Option Nat :=
  if b = 0 then none else some (a / b)

/-- Checked remainder, `checked_rem`: fails exactly on a zero divisor. -/
def checked_rem (a b : Nat) : Option Nat :=
  if b = 0 then none else some (a % b)

/-- Narrowing `u128 -> u64`, the `to_u64()` calls of `calc_swap`:
fails iff the value does not fit in 64 bits. -/
def to_u64 (a : Nat) : Option Nat :=
  if a < 2 ^ 64 then some a else none

/-- `spl_math::checked_ceil_div::CheckedCeilDiv::checked_ceil_div` for u128,
the external dependency called by `calc_swap` (src/swap.rs line 45).
Returns the ceiling quotient together with a divisor adjusted downwards to
the least value whose product with the quotient still reaches the dividend.
Fails on a zero divisor and, by an explicit guard, when the floor quotient
is zero. -/
def checked_ceil_div (lhs rhs : Nat) : Option (Nat × Nat) :=
  match checked_div lhs rhs with
  | none => none
  | some quotient =>
    if quotient = 0 then none
    else
      match checked_rem lhs rhs with
      | none => none
      | some remainder =>
        if remainder > 0 then
          match u128_checked_add quotient 1 with
          | none => none
          | some quotient1 =>
            match checked_div lhs quotient1 with
            | none => none
            | some rhs1 =>
              match checked_rem lhs quotient1 with
              | none => none
              | some remainder1 =>
                if remainder1 > 0 then
                  match u128_checked_add rhs1 1 with
                  | none => none
                  | some rhs2 => some (quotient1, rhs2)
                else some (quotient1, rhs1)
        else some (quotient, rhs)

/-- `SwapResult` of src/swap.rs. -/
structure SwapResult where
  take_amount : Nat
  return_amount : Nat
deriving DecidableEq

/-- `calc_swap` of src/swap.rs, lines 29-60, translated step by step:
promote to u128, `K = X * Y` checked, `X + dX` checked, `checked_ceil_div`,
`take = (X + dX)(adjusted) - X` checked and narrowed, zero guard,
`give = Y - (Y - dY)` checked and narrowed, zero guard. -/
def calc_swap (add_source_amount source_amount destination_amount : Nat) :
    Option SwapResult :=
  match u128_checked_mul source_amount destination_amount with
  | none => none
  | some invariant =>
    match u128_checked_add source_amount add_source_amount with
    | none => none
    | some new_source_amount0 =>
      match checked_ceil_div invariant new_source_amount0 with
      | none => none
      | some (new_destination_amount, new_source_amount) =>
        match checked_sub new_source_amount source_amount with
        | none => none
        | some take_wide =>
          match to_u64 take_wide with
          | none => none
          | some take_amount_x =>
            if take_amount_x = 0 then none
            else
              match checked_sub destination_amount new_destination_amount with
              | none => none
              | some return_wide =>
                match to_u64 return_wide with
                | none => none
                | some return_amount_y =>
                  if return_amount_y = 0 then none
                  else some ⟨take_amount_x, return_amount_y⟩

/-- Modelled from the spec, section 4.2 step 4: the new out-side reserve is
the ceiling `ceil(K / new_reserve_in)`. -/
def spec_new_reserve_out (amount_in reserve_in reserve_out : Nat) : Nat :=
  ceil_div (reserve_in * reserve_out) (reserve_in + amount_in)

/-- Modelled from the spec, section 4.2 step 4: the adjusted in-side reserve,
the least value whose product with `spec_new_reserve_out` is at least `K`. -/
def spec_new_reserve_in (amount_in reserve_in reserve_out : Nat) : Nat :=
  ceil_div (reserve_in * reserve_out)
    (spec_new_reserve_out amount_in reserve_in reserve_out)

/-- Modelled from the spec, section 4.2 step 5: `take`. -/
def spec_take (amount_in reserve_in reserve_out : Nat) : Nat :=
  spec_new_reserve_in amount_in reserve_in reserve_out - reserve_in

/-- Modelled from the spec, section 4.2 step 6: `give`. -/
def spec_give (amount_in reserve_in reserve_out : Nat) : Nat :=
  reserve_out - spec_new_reserve_out amount_in reserve_in reserve_out

/-- Public keys are embedded as abstract identifiers. -/
abbrev Pubkey := Nat

/-- `Pda` of src/pda.rs: the five derived addresses of a market, owner
authorities and vault carrying their bump discriminant. -/
structure Pda where
  pda_owner_token_x : Pubkey × Nat
  pda_owner_token_y : Pubkey × Nat
  pda_token_x_pk : Pubkey
  pda_token_y_pk : Pubkey
  vault : Pubkey × Nat
deriving DecidableEq

/-- `AmmError` of src/error.rs, in source order. -/
inductive AmmError where
  | IdenticalMinter
  | AlreadyInUse
  | AmountZero
  | Overflow
  | Underflow
  | IncorrectSwapPk
  | CalculatedZeroSwap
  | InvalidVault
deriving DecidableEq

/-- The `ProgramError` values the processor can surface: the two
solana-program errors it returns itself, the pass-through decode errors,
and the custom `AmmError` codes. -/
inductive ProgramError where
  | MissingRequiredSignature
  | InvalidSeeds
  | InvalidArgument
  | BorshIoError
  | Custom (e : AmmError)
deriving DecidableEq

/-- `ProgramResult = Result<(), ProgramError>`. -/
inductive ProcResult where
  | ok
  | err (e : ProgramError)
deriving DecidableEq

/-- `Vault` of src/state.rs: the reserve ledger record, two u64 fields. -/
structure Vault where
  token_x_amount : Nat
  token_y_amount : Nat
deriving DecidableEq

/-- Low byte of a natural number. -/
def byte_of (n : Nat) : Fin 256 := ⟨n % 256, Nat.mod_lt n (by norm_num)⟩

/-- Little-endian borsh serialization of a u64 value, 8 bytes. -/
def u64_le_bytes (n : Nat) : List (Fin 256) :=
  [byte_of n, byte_of (n / 256), byte_of (n / 65536), byte_of (n / 16777216),
   byte_of (n / 4294967296), byte_of (n / 1099511627776),
   byte_of (n / 281474976710656), byte_of (n / 72057594037927936)]

/-- Little-endian borsh deserialization of a u64 value from 8 bytes. -/
def u64_from_le (b0 b1 b2 b3 b4 b5 b6 b7 : Fin 256) : Nat :=
  b0.val + 256 * (b1.val + 256 * (b2.val + 256 * (b3.val + 256 * (b4.val +
    256 * (b5.val + 256 * (b6.val + 256 * b7.val))))))

/-- Borsh `vault.try_to_vec()` and `vault.serialize(...)`: 16 bytes,
little-endian `reserve_x` then `reserve_y`. -/
def vault_serialize (v : Vault) : List (Fin 256) :=
  u64_le_bytes v.token_x_amount ++ u64_le_bytes v.token_y_amount

/-- Borsh `Vault::try_from_slice`: succeeds exactly on a 16-byte buffer,
two little-endian u64 fields, and fails on any other length (borsh
rejects both truncated and oversized input). -/
def vault_try_from_slice (data : List (Fin 256)) : Option Vault :=
  match data with
  | [x0, x1, x2, x3, x4, x5, x6, x7, y0, y1, y2, y3, y4, y5, y6, y7] =>
    some ⟨u64_from_le x0 x1 x2 x3 x4 x5 x6 x7,
          u64_from_le y0 y1 y2 y3 y4 y5 y6 y7⟩
  | _ => none

/-- `SwapDirection` of src/swap.rs. -/
inductive SwapDirection where
  | XtoY
  | YtoX
deriving DecidableEq

/-- `SwapDirection::new` of src/swap.rs lines 18-26. -/
def SwapDirection.new (swap_pk x_pk y_pk : Pubkey) : Option SwapDirection :=
  if swap_pk = x_pk then some SwapDirection.XtoY
  else if swap_pk = y_pk then some SwapDirection.YtoX
  else none

/-- The slice of `AccountInfo` the processor reads: address, signer flag
and account data. -/
structure AccountInfo where
  key : Pubkey
  is_signer : Bool
  data : List (Fin 256)
deriving DecidableEq

/-- Requests the processor issues to its collaborators through `invoke`
and `invoke_signed`, recorded in issue order.  `signed = true` marks a
derived-authority signature (`invoke_signed`). -/
inductive Effect where
  | createAssociatedToken (payer owner minter : Pubkey)
  | transferToken (source destination authority : Pubkey) (amount : Nat)
      (signed : Bool)
  | createVaultAccount (payer vault : Pubkey)
deriving DecidableEq

/-- Result of one processor invocation: the returned `ProgramResult`, the
ordered list of collaborator requests issued before returning, and the
vault account data after the invocation. -/
structure ProcOut where
  result : ProcResult
  effects : List Effect
  vault_data : List (Fin 256)
deriving DecidableEq

/-- The positional account list of `process_swap` (src/processor.rs
lines 256-273), as named fields. -/
structure SwapAccounts where
  user_owner_token : AccountInfo
  user_token_x : AccountInfo
  user_token_y : AccountInfo
  minter_x : AccountInfo
  minter_y : AccountInfo
  pda_token_x : AccountInfo
  pda_token_y : AccountInfo
  pda_owner_token_x : AccountInfo
  pda_owner_token_y : AccountInfo
  pda_vault : AccountInfo
  spl_token_program : AccountInfo
deriving DecidableEq

/-- The positional account list of `process_init_market`
(src/processor.rs lines 42-65), as named fields.  `rent_ok` models
whether `Rent::from_account_info` succeeds (a pass-through decode done
while reading accounts, before any check). -/
structure InitAccounts where
  user_owner_token_x : AccountInfo
  user_owner_token_y : AccountInfo
  user_payer : AccountInfo
  user_token_x : AccountInfo
  user_token_y : AccountInfo
  minter_x : AccountInfo
  minter_y : AccountInfo
  pda_token_x : AccountInfo
  pda_token_y : AccountInfo
  pda_owner_token_x : AccountInfo
  pda_owner_token_y : AccountInfo
  pda_vault : AccountInfo
  rent_ok : Bool
  system_program : AccountInfo
  spl_token_program : AccountInfo
  spl_associated_token_program : AccountInfo
deriving DecidableEq

/-- Checked u64 addition, `u64::checked_add` of the reserve update. -/
def u64_checked_add (a b : Nat) : Option Nat :=
  if a + b < 2 ^ 64 then some (a + b) else none

/-- Checked u64 subtraction, `u64::checked_sub` of the reserve update. -/
def u64_checked_sub (a b : Nat) : Option Nat :=
  if b ≤ a then some (a - b) else none

/-- `Processor::process_swap` of src/processor.rs lines 250-416,
parameterized by the pure derivation function `gen` standing for
`Pda::generate` (a deterministic hash-based derivation of the five
addresses from the two minters).  Checks in source order: caller
signature, distinct minters, swap key among the minters, the five
derived-address comparisons, nonzero amount, vault decode, direction,
`calc_swap`; then issues the two transfers and persists the updated
reserves.  The reserve update keeps the source assignment exactly: for
Y-to-X the x field receives `token_y_amount + take` and the y field
`token_x_amount - give` (lines 398-403). -/
def process_swap (gen : Pubkey → Pubkey → Pda) (amount : Nat)
    (minter_pk : Pubkey) (accs : SwapAccounts) : ProcOut :=
  if accs.user_owner_token.is_signer = false then
    ⟨ProcResult.err ProgramError.MissingRequiredSignature, [],
      accs.pda_vault.data⟩
  else if accs.minter_x.key = accs.minter_y.key then
    ⟨ProcResult.err (ProgramError.Custom AmmError.IdenticalMinter), [],
      accs.pda_vault.data⟩
  else if minter_pk ≠ accs.minter_x.key ∧ minter_pk ≠ accs.minter_y.key then
    ⟨ProcResult.err (ProgramError.Custom AmmError.IncorrectSwapPk), [],
      accs.pda_vault.data⟩
  else
    let pda := gen accs.minter_x.key accs.minter_y.key
    if accs.pda_owner_token_x.key ≠ pda.pda_owner_token_x.1 then
      ⟨ProcResult.err ProgramError.InvalidSeeds, [], accs.pda_vault.data⟩
    else if accs.pda_owner_token_y.key ≠ pda.pda_owner_token_y.1 then
      ⟨ProcResult.err ProgramError.InvalidSeeds, [], accs.pda_vault.data⟩
    else if accs.pda_token_x.key ≠ pda.pda_token_x_pk then
      ⟨ProcResult.err ProgramError.InvalidSeeds, [], accs.pda_vault.data⟩
    else if accs.pda_token_y.key ≠ pda.pda_token_y_pk then
      ⟨ProcResult.err ProgramError.InvalidSeeds, [], accs.pda_vault.data⟩
    else if accs.pda_vault.key ≠ pda.vault.1 then
      ⟨ProcResult.err ProgramError.InvalidSeeds, [], accs.pda_vault.data⟩
    else if amount = 0 then
      ⟨ProcResult.err (ProgramError.Custom AmmError.AmountZero), [],
        accs.pda_vault.data⟩
    else
      match vault_try_from_slice accs.pda_vault.data with
      | none =>
        ⟨ProcResult.err (ProgramError.Custom AmmError.InvalidVault), [],
          accs.pda_vault.data⟩
      | some vault =>
        match SwapDirection.new minter_pk accs.minter_x.key accs.minter_y.key
          with
        | none =>
          ⟨ProcResult.err (ProgramError.Custom AmmError.IncorrectSwapPk), [],
            accs.pda_vault.data⟩
        | some SwapDirection.XtoY =>
          match calc_swap amount vault.token_x_amount vault.token_y_amount with
          | none =>
            ⟨ProcResult.err (ProgramError.Custom AmmError.CalculatedZeroSwap),
              [], accs.pda_vault.data⟩
          | some swap_result =>
            let effects := [
              Effect.transferToken accs.user_token_x.key accs.pda_token_x.key
                accs.user_owner_token.key swap_result.take_amount false,
              Effect.transferToken accs.pda_token_y.key accs.user_token_y.key
                accs.pda_owner_token_y.key swap_result.return_amount true]
            match u64_checked_add vault.token_x_amount swap_result.take_amount
              with
            | none =>
              ⟨ProcResult.err (ProgramError.Custom AmmError.Overflow), effects,
                accs.pda_vault.data⟩
            | some nex_x =>
              match u64_checked_sub vault.token_y_amount
                swap_result.return_amount with
              | none =>
                ⟨ProcResult.err (ProgramError.Custom AmmError.Underflow),
                  effects, accs.pda_vault.data⟩
              | some nex_y =>
                ⟨ProcResult.ok, effects, vault_serialize ⟨nex_x, nex_y⟩⟩
        | some SwapDirection.YtoX =>
          match calc_swap amount vault.token_y_amount vault.token_x_amount with
          | none =>
            ⟨ProcResult.err (ProgramError.Custom AmmError.CalculatedZeroSwap),
              [], accs.pda_vault.data⟩
          | some swap_result =>
            let effects := [
              Effect.transferToken accs.user_token_y.key accs.pda_token_y.key
                accs.user_owner_token.key swap_result.take_amount false,
              Effect.transferToken accs.pda_token_x.key accs.user_token_x.key
                accs.pda_owner_token_x.key swap_result.return_amount true]
            match u64_checked_add vault.token_y_amount swap_result.take_amount
              with
            | none =>
              ⟨ProcResult.err (ProgramError.Custom AmmError.Overflow), effects,
                accs.pda_vault.data⟩
            | some nex_x =>
              match u64_checked_sub vault.token_x_amount
                swap_result.return_amount with
              | none =>
                ⟨ProcResult.err (ProgramError.Custom AmmError.Underflow),
                  effects, accs.pda_vault.data⟩
              | some nex_y =>
                ⟨ProcResult.ok, effects, vault_serialize ⟨nex_x, nex_y⟩⟩

/-- `Processor::process_init_market` of src/processor.rs lines 36-248,
parameterized by the derivation function `gen` as in `process_swap`.
Checks in source order: rent decode, the three signatures, distinct
minters, the five derived-address comparisons, nonzero amounts.  Then,
interleaved with the existence checks: create holding X (or fail
`AlreadyInUse` if it exists), create holding Y likewise, transfer both
deposits, create the vault (or fail `AlreadyInUse` if it exists, after
the four preceding effects), decode the fresh 16-byte buffer and persist
`{amount_x, amount_y}`. -/
def process_init_market (gen : Pubkey → Pubkey → Pda)
    (amount_x amount_y : Nat) (accs : InitAccounts) : ProcOut :=
  if accs.rent_ok = false then
    ⟨ProcResult.err ProgramError.InvalidArgument, [], accs.pda_vault.data⟩
  else if accs.user_owner_token_x.is_signer = false then
    ⟨ProcResult.err ProgramError.MissingRequiredSignature, [],
      accs.pda_vault.data⟩
  else if accs.user_owner_token_y.is_signer = false then
    ⟨ProcResult.err ProgramError.MissingRequiredSignature, [],
      accs.pda_vault.data⟩
  else if accs.user_payer.is_signer = false then
    ⟨ProcResult.err ProgramError.MissingRequiredSignature, [],
      accs.pda_vault.data⟩
  else if accs.minter_x.key = accs.minter_y.key then
    ⟨ProcResult.err (ProgramError.Custom AmmError.IdenticalMinter), [],
      accs.pda_vault.data⟩
  else
    let pda := gen accs.minter_x.key accs.minter_y.key
    if accs.pda_owner_token_x.key ≠ pda.pda_owner_token_x.1 then
      ⟨ProcResult.err ProgramError.InvalidSeeds, [], accs.pda_vault.data⟩
    else if accs.pda_owner_token_y.key ≠ pda.pda_owner_token_y.1 then
      ⟨ProcResult.err ProgramError.InvalidSeeds, [], accs.pda_vault.data⟩
    else if accs.pda_token_x.key ≠ pda.pda_token_x_pk then
      ⟨ProcResult.err ProgramError.InvalidSeeds, [], accs.pda_vault.data⟩
    else if accs.pda_token_y.key ≠ pda.pda_token_y_pk then
      ⟨ProcResult.err ProgramError.InvalidSeeds, [], accs.pda_vault.data⟩
    else if accs.pda_vault.key ≠ pda.vault.1 then
      ⟨ProcResult.err ProgramError.InvalidSeeds, [], accs.pda_vault.data⟩
    else if amount_x = 0 ∨ amount_y = 0 then
      ⟨ProcResult.err (ProgramError.Custom AmmError.AmountZero), [],
        accs.pda_vault.data⟩
    else if accs.pda_token_x.data ≠ [] then
      ⟨ProcResult.err (ProgramError.Custom AmmError.AlreadyInUse), [],
        accs.pda_vault.data⟩
    else
      let e1 := Effect.createAssociatedToken accs.user_payer.key
        accs.pda_owner_token_x.key accs.minter_x.key
      if accs.pda_token_y.data ≠ [] then
        ⟨ProcResult.err (ProgramError.Custom AmmError.AlreadyInUse), [e1],
          accs.pda_vault.data⟩
      else
        let e2 := Effect.createAssociatedToken accs.user_payer.key
          accs.pda_owner_token_y.key accs.minter_y.key
        let e3 := Effect.transferToken accs.user_token_x.key
          accs.pda_token_x.key accs.user_owner_token_x.key amount_x false
        let e4 := Effect.transferToken accs.user_token_y.key
          accs.pda_token_y.key accs.user_owner_token_y.key amount_y false
        if accs.pda_vault.data ≠ [] then
          ⟨ProcResult.err (ProgramError.Custom AmmError.AlreadyInUse),
            [e1, e2, e3, e4], accs.pda_vault.data⟩
        else
          let e5 := Effect.createVaultAccount accs.user_payer.key
            accs.pda_vault.key
          match vault_try_from_slice (List.replicate 16 (0 : Fin 256)) with
          | none =>
            ⟨ProcResult.err ProgramError.BorshIoError, [e1, e2, e3, e4, e5],
              List.replicate 16 (0 : Fin 256)⟩
          | some _ =>
            ⟨ProcResult.ok, [e1, e2, e3, e4, e5],
              vault_serialize ⟨amount_x, amount_y⟩⟩

/-- A concrete derivation outcome used for concrete invocations. -/
def demo_pda : Pda := ⟨(8, 255), (9, 254), 6, 7, (10, 253)⟩

/-- A concrete derivation function used for concrete invocations. -/
def demo_gen : Pubkey → Pubkey → Pda := fun _ _ => demo_pda

/-- Concrete swap account list: caller 1 signing, minters 4 and 5,
derived addresses matching `demo_pda`, vault data as given. -/
def demo_swap_accs (vdata : List (Fin 256)) : SwapAccounts :=
  ⟨⟨1, true, []⟩, ⟨2, false, []⟩, ⟨3, false, []⟩, ⟨4, false, []⟩,
   ⟨5, false, []⟩, ⟨6, false, []⟩, ⟨7, false, []⟩, ⟨8, false, []⟩,
   ⟨9, false, []⟩, ⟨10, false, vdata⟩, ⟨11, false, []⟩⟩

/-- Concrete init account list: owners 1, 2 and payer 3 signing, minters
20 and 21, derived addresses matching `demo_pda`, holding and vault data
as given. -/
def demo_init_accs (dx dy dv : List (Fin 256)) : InitAccounts :=
  ⟨⟨1, true, []⟩, ⟨2, true, []⟩, ⟨3, true, []⟩, ⟨4, false, []⟩,
   ⟨5, false, []⟩, ⟨20, false, []⟩, ⟨21, false, []⟩, ⟨6, false, dx⟩,
   ⟨7, false, dy⟩, ⟨8, false, []⟩, ⟨9, false, []⟩, ⟨10, false, dv⟩,
   true, ⟨30, false, []⟩, ⟨31, false, []⟩, ⟨32, false, []⟩⟩

/-- The conjunction of the precondition checks 1-4 of
`process_init_market` (src/processor.rs lines 62-115): rent decode, the
three signatures, distinct minters, the five derived-address equalities,
and the two nonzero amounts — everything the processor verifies before
it issues any request. -/
def init_checks_pass (gen : Pubkey → Pubkey → Pda)
    (amount_x amount_y : Nat) (accs : InitAccounts) : Prop :=
  accs.rent_ok = true ∧
  accs.user_owner_token_x.is_signer = true ∧
  accs.user_owner_token_y.is_signer = true ∧
  accs.user_payer.is_signer = true ∧
  accs.minter_x.key ≠ accs.minter_y.key ∧
  accs.pda_owner_token_x.key =
    (gen accs.minter_x.key accs.minter_y.key).pda_owner_token_x.1 ∧
  accs.pda_owner_token_y.key =
    (gen accs.minter_x.key accs.minter_y.key).pda_owner_token_y.1 ∧
  accs.pda_token_x.key =
    (gen accs.minter_x.key accs.minter_y.key).pda_token_x_pk ∧
  accs.pda_token_y.key =
    (gen accs.minter_x.key accs.minter_y.key).pda_token_y_pk ∧
  accs.pda_vault.key =
    (gen accs.minter_x.key accs.minter_y.key).vault.1 ∧
  amount_x ≠ 0 ∧ amount_y ≠ 0

instance (gen : Pubkey → Pubkey → Pda) (amount_x amount_y : Nat)
    (accs : InitAccounts) :
    Decidable (init_checks_pass gen amount_x amount_y accs) := by
  unfold init_checks_pass
  infer_instance

theorem ceil_div_le_iff (a b c : Nat) (hb : 0 < b) :
    ceil_div a b ≤ c ↔ a ≤ b * c := by
  unfold ceil_div
  rw [Nat.div_le_iff_le_mul_add_pred hb]
  generalize b * c = m
  omega

theorem le_mul_ceil_div (a b : Nat) (hb : 0 < b) : a ≤ b * ceil_div a b :=
  (ceil_div_le_iff a b (ceil_div a b) hb).mp le_rfl

theorem div_le_ceil_div (a b : Nat) : a / b ≤ ceil_div a b := by
  unfold ceil_div
  rcases Nat.eq_zero_or_pos b with hb | hb
  · subst hb
    simp
  · exact Nat.div_le_div_right (by omega)

theorem ceil_div_of_mod_eq_zero (a b : Nat) (hb : 0 < b) (h : a % b = 0) :
    ceil_div a b = a / b := by
  refine Nat.le_antisymm ?_ (div_le_ceil_div a b)
  rw [ceil_div_le_iff a b (a / b) hb, Nat.mul_div_cancel' (Nat.dvd_of_mod_eq_zero h)]

theorem ceil_div_of_mod_ne_zero (a b : Nat) (hb : 0 < b) (h : a % b ≠ 0) :
    ceil_div a b = a / b + 1 := by
  have hdm := Nat.div_add_mod a b
  have hlt : a % b < b := Nat.mod_lt a hb
  refine Nat.le_antisymm ?_ ?_
  · rw [ceil_div_le_iff a b (a / b + 1) hb, Nat.mul_succ]
    generalize hp : b * (a / b) = p at hdm ⊢
    omega
  · have : ¬ (ceil_div a b ≤ a / b) := by
      rw [ceil_div_le_iff a b (a / b) hb]
      generalize hp : b * (a / b) = p at hdm ⊢
      omega
    omega

theorem checked_ceil_div_eq (lhs rhs : Nat) (hl : lhs < 2 ^ 128) :
    checked_ceil_div lhs rhs =
      if rhs = 0 ∨ lhs / rhs = 0 then none
      else some (ceil_div lhs rhs, ceil_div lhs (ceil_div lhs rhs)) := by
  by_cases h0 : rhs = 0
  · simp [checked_ceil_div, checked_div, h0]
  · by_cases hq : lhs / rhs = 0
    · simp [checked_ceil_div, checked_div, h0, hq]
    · have hrp : 0 < rhs := Nat.pos_of_ne_zero h0
      by_cases hr : lhs % rhs = 0
      · have hc1 : ceil_div lhs rhs = lhs / rhs :=
          ceil_div_of_mod_eq_zero lhs rhs hrp hr
        have hdvd : rhs * (lhs / rhs) = lhs :=
          Nat.mul_div_cancel' (Nat.dvd_of_mod_eq_zero hr)
        have hdv2 : (lhs / rhs) ∣ lhs := ⟨rhs, by rw [Nat.mul_comm]; omega⟩
        have hlne : lhs ≠ 0 := by
          intro hz
          rw [hz, Nat.zero_div] at hq
          exact hq rfl
        have hq2 : lhs % (lhs / rhs) = 0 := Nat.mod_eq_zero_of_dvd hdv2
        have hc2 : ceil_div lhs (lhs / rhs) = rhs := by
          rw [ceil_div_of_mod_eq_zero lhs (lhs / rhs) (Nat.pos_of_ne_zero hq) hq2]
          exact Nat.div_div_self (Nat.dvd_of_mod_eq_zero hr) hlne
        simp [checked_ceil_div, checked_div, checked_rem, h0, hq, hr, hc1, hc2]
      · have hrpos : 0 < lhs % rhs := Nat.pos_of_ne_zero hr
        have hc1 : ceil_div lhs rhs = lhs / rhs + 1 :=
          ceil_div_of_mod_ne_zero lhs rhs hrp hr
        have hrhs2 : 2 ≤ rhs := by
          have h1 : rhs ≠ 1 := fun h => hr (by rw [h]; exact Nat.mod_one lhs)
          omega
        have hqle : lhs / rhs ≤ lhs / 2 := Nat.div_le_div_left hrhs2 (by norm_num)
        have hov1 : lhs / rhs + 1 < 2 ^ 128 := by omega
        have hq1pos : 0 < lhs / rhs + 1 := Nat.succ_pos _
        have hq1ne : lhs / rhs + 1 ≠ 0 := Nat.succ_ne_zero _
        have hq1ge2 : 2 ≤ lhs / rhs + 1 := by omega
        have hrle : lhs / (lhs / rhs + 1) ≤ lhs / 2 :=
          Nat.div_le_div_left hq1ge2 (by norm_num)
        have hov2 : lhs / (lhs / rhs + 1) + 1 < 2 ^ 128 := by omega
        norm_num at hov1 hov2
        by_cases hr2 : lhs % (lhs / rhs + 1) = 0
        · have hc2 : ceil_div lhs (lhs / rhs + 1) = lhs / (lhs / rhs + 1) :=
            ceil_div_of_mod_eq_zero lhs (lhs / rhs + 1) hq1pos hr2
          simp [checked_ceil_div, checked_div, checked_rem, u128_checked_add,
                h0, hq, hrpos, hov1, hq1ne, hr2, hc1, hc2]
        · have hr2pos : 0 < lhs % (lhs / rhs + 1) := Nat.pos_of_ne_zero hr2
          have hc2 : ceil_div lhs (lhs / rhs + 1) = lhs / (lhs / rhs + 1) + 1 :=
            ceil_div_of_mod_ne_zero lhs (lhs / rhs + 1) hq1pos hr2
          simp [checked_ceil_div, checked_div, checked_rem, u128_checked_add,
                h0, hq, hrpos, hov1, hov2, hq1ne, hr2pos, hc1, hc2]

theorem calc_swap_eq (a s d : Nat) (ha : a < 2 ^ 64) (hs : s < 2 ^ 64)
    (hd : d < 2 ^ 64) :
    calc_swap a s d =
      if s + a = 0 ∨ s * d < s + a ∨ spec_take a s d = 0 ∨ spec_give a s d = 0
      then none
      else some ⟨spec_take a s d, spec_give a s d⟩ := by
  have hs1 : s ≤ 2 ^ 64 - 1 := by omega
  have hd1 : d ≤ 2 ^ 64 - 1 := by omega
  have hK : s * d < 2 ^ 128 := lt_of_le_of_lt (Nat.mul_le_mul hs1 hd1) (by norm_num)
  have hn : s + a < 2 ^ 128 := by omega
  simp only [spec_take, spec_give, spec_new_reserve_in, spec_new_reserve_out]
  unfold calc_swap
  simp only [u128_checked_mul, u128_checked_add]
  rw [if_pos hK, if_pos hn]
  dsimp only
  rw [checked_ceil_div_eq (s * d) (s + a) hK]
  by_cases h0 : s + a = 0
  · simp [h0]
  · by_cases hlt : s * d < s + a
    · have hz : s * d / (s + a) = 0 := Nat.div_eq_of_lt hlt
      simp [hz, hlt, h0]
    · have hnpos : 0 < s + a := Nat.pos_of_ne_zero h0
      have hKn : s + a ≤ s * d := Nat.le_of_not_lt hlt
      have hq0 : ¬ s * d / (s + a) = 0 := by
        have h1 : 1 ≤ s * d / (s + a) :=
          (Nat.le_div_iff_mul_le hnpos).mpr (by omega)
        omega
      have hcond : ¬ (s + a = 0 ∨ s * d / (s + a) = 0) := by
        push_neg
        exact ⟨h0, hq0⟩
      rw [if_neg hcond]
      dsimp only
      have hqpos : 0 < ceil_div (s * d) (s + a) :=
        lt_of_lt_of_le (Nat.pos_of_ne_zero hq0) (div_le_ceil_div (s * d) (s + a))
      have hqd : ceil_div (s * d) (s + a) ≤ d := by
        rw [ceil_div_le_iff _ _ _ hnpos]
        exact Nat.mul_le_mul (Nat.le_add_right s a) (le_refl d)
      have hspos : 0 < s := by
        rcases Nat.eq_zero_or_pos s with hz | hp
        · subst hz
          simp at hKn h0
          omega
        · exact hp
      have hdpos : 0 < d := by
        rcases Nat.eq_zero_or_pos d with hz | hp
        · subst hz
          simp at hKn
          omega
        · exact hp
      have hsr : s ≤ ceil_div (s * d) (ceil_div (s * d) (s + a)) := by
        by_contra hc
        push_neg at hc
        have h2 : ceil_div (s * d) (ceil_div (s * d) (s + a)) ≤ s - 1 := by omega
        rw [ceil_div_le_iff _ _ _ hqpos] at h2
        have h3 : ceil_div (s * d) (s + a) * (s - 1) ≤ d * (s - 1) :=
          Nat.mul_le_mul hqd (le_refl _)
        have h4 : d * (s - 1) < s * d := by
          obtain ⟨t, rfl⟩ : ∃ t, s = t + 1 := ⟨s - 1, by omega⟩
          simp only [Nat.add_sub_cancel]
          calc d * t < d * t + d := by omega
            _ = (t + 1) * d := by ring
        exact absurd (lt_of_le_of_lt (le_trans h2 h3) h4) (lt_irrefl _)
      have hrn : ceil_div (s * d) (ceil_div (s * d) (s + a)) ≤ s + a := by
        rw [ceil_div_le_iff _ _ _ hqpos]
        calc s * d ≤ (s + a) * ceil_div (s * d) (s + a) :=
              le_mul_ceil_div (s * d) (s + a) hnpos
          _ = ceil_div (s * d) (s + a) * (s + a) := Nat.mul_comm _ _
      simp only [checked_sub, to_u64]
      rw [if_pos hsr]
      dsimp only
      have htb : ceil_div (s * d) (ceil_div (s * d) (s + a)) - s < 2 ^ 64 := by
        omega
      rw [if_pos htb]
      dsimp only
      by_cases ht : ceil_div (s * d) (ceil_div (s * d) (s + a)) - s = 0
      · rw [if_pos ht]
        rw [if_pos (show s + a = 0 ∨ s * d < s + a ∨
              ceil_div (s * d) (ceil_div (s * d) (s + a)) - s = 0 ∨
              d - ceil_div (s * d) (s + a) = 0 from Or.inr (Or.inr (Or.inl ht)))]
      · rw [if_neg ht]
        rw [if_pos hqd]
        dsimp only
        have hgb : d - ceil_div (s * d) (s + a) < 2 ^ 64 := by omega
        rw [if_pos hgb]
        dsimp only
        by_cases hg : d - ceil_div (s * d) (s + a) = 0
        · rw [if_pos hg]
          rw [if_pos (show s + a = 0 ∨ s * d < s + a ∨
                ceil_div (s * d) (ceil_div (s * d) (s + a)) - s = 0 ∨
                d - ceil_div (s * d) (s + a) = 0 from Or.inr (Or.inr (Or.inr hg)))]
        · rw [if_neg hg]
          rw [if_neg (show ¬ (s + a = 0 ∨ s * d < s + a ∨
                ceil_div (s * d) (ceil_div (s * d) (s + a)) - s = 0 ∨
                d - ceil_div (s * d) (s + a) = 0) from by
            push_neg
            exact ⟨h0, Nat.le_of_not_lt hlt, ht, hg⟩)]

theorem calc_swap_bounds (a s d : Nat) (h1 : ¬ s + a = 0) (h2 : ¬ s * d < s + a) :
    0 < spec_new_reserve_out a s d ∧
    spec_new_reserve_out a s d ≤ d ∧
    s ≤ spec_new_reserve_in a s d ∧
    spec_new_reserve_in a s d ≤ s + a ∧
    s * d ≤ spec_new_reserve_out a s d * spec_new_reserve_in a s d := by
  simp only [spec_new_reserve_in, spec_new_reserve_out]
  have hnpos : 0 < s + a := Nat.pos_of_ne_zero h1
  have hKn : s + a ≤ s * d := Nat.le_of_not_lt h2
  have hq0 : ¬ s * d / (s + a) = 0 := by
    have h3 : 1 ≤ s * d / (s + a) :=
      (Nat.le_div_iff_mul_le hnpos).mpr (by omega)
    omega
  have hqpos : 0 < ceil_div (s * d) (s + a) :=
    lt_of_lt_of_le (Nat.pos_of_ne_zero hq0) (div_le_ceil_div (s * d) (s + a))
  have hqd : ceil_div (s * d) (s + a) ≤ d := by
    rw [ceil_div_le_iff _ _ _ hnpos]
    exact Nat.mul_le_mul (Nat.le_add_right s a) (le_refl d)
  have hspos : 0 < s := by
    rcases Nat.eq_zero_or_pos s with hz | hp
    · subst hz
      simp at hKn h1
      omega
    · exact hp
  have hdpos : 0 < d := by
    rcases Nat.eq_zero_or_pos d with hz | hp
    · subst hz
      simp at hKn
      omega
    · exact hp
  have hsr : s ≤ ceil_div (s * d) (ceil_div (s * d) (s + a)) := by
    by_contra hc
    push_neg at hc
    have h3 : ceil_div (s * d) (ceil_div (s * d) (s + a)) ≤ s - 1 := by omega
    rw [ceil_div_le_iff _ _ _ hqpos] at h3
    have h4 : ceil_div (s * d) (s + a) * (s - 1) ≤ d * (s - 1) :=
      Nat.mul_le_mul hqd (le_refl _)
    have h5 : d * (s - 1) < s * d := by
      obtain ⟨t, rfl⟩ : ∃ t, s = t + 1 := ⟨s - 1, by omega⟩
      simp only [Nat.add_sub_cancel]
      calc d * t < d * t + d := by omega
        _ = (t + 1) * d := by ring
    exact absurd (lt_of_le_of_lt (le_trans h3 h4) h5) (lt_irrefl _)
  have hrn : ceil_div (s * d) (ceil_div (s * d) (s + a)) ≤ s + a := by
    rw [ceil_div_le_iff _ _ _ hqpos]
    calc s * d ≤ (s + a) * ceil_div (s * d) (s + a) :=
          le_mul_ceil_div (s * d) (s + a) hnpos
      _ = ceil_div (s * d) (s + a) * (s + a) := Nat.mul_comm _ _
  exact ⟨hqpos, hqd, hsr, hrn, le_mul_ceil_div (s * d) (ceil_div (s * d) (s + a)) hqpos⟩

/-- C1: for every amount_in and reserves X, Y (u64 values) with X > 0 and
Y > 0, a successful `calc_swap amount_in X Y = some {take, give}` satisfies
`(X + take) * (Y - give) >= X * Y`, in exact natural-number arithmetic. -/
theorem c1_calc_swap_never_decreases_k (amount_in X Y : Nat)
    (hX : 0 < X) (hY : 0 < Y)
    (hab : amount_in < 2 ^ 64) (hXb : X < 2 ^ 64) (hYb : Y < 2 ^ 64)
    (r : SwapResult) (h : calc_swap amount_in X Y = some r) :
    X * Y ≤ (X + r.take_amount) * (Y - r.return_amount) := by
  rw [calc_swap_eq amount_in X Y hab hXb hYb] at h
  split at h
  · exact absurd h (by simp)
  · rename_i hcond
    simp only [Option.some.injEq] at h
    subst h
    push_neg at hcond
    obtain ⟨h1, h2, _, _⟩ := hcond
    obtain ⟨hqpos, hqd, hsr, hrn, hK⟩ :=
      calc_swap_bounds amount_in X Y h1 (Nat.not_lt.mpr h2)
    simp only [spec_take, spec_give]
    rw [Nat.add_sub_cancel' hsr, Nat.sub_sub_self hqd]
    calc X * Y ≤ spec_new_reserve_out amount_in X Y *
          spec_new_reserve_in amount_in X Y := hK
      _ = spec_new_reserve_in amount_in X Y *
          spec_new_reserve_out amount_in X Y := Nat.mul_comm _ _

theorem c1_calc_swap_never_decreases_k_witness :
    calc_swap 100 500 300 = some ⟨100, 50⟩ ∧
    (500 * 300 : Nat) ≤ (500 + 100) * (300 - 50) :=
  ⟨by decide,
   c1_calc_swap_never_decreases_k 100 500 300 (by decide) (by decide)
     (by decide) (by decide) (by decide) ⟨100, 50⟩ (by decide)⟩

/-- C2 (amended): for u64 inputs, `calc_swap` returns none iff
`new_reserve_in = reserve_in + amount_in` is zero, or
`K = reserve_in * reserve_out` is strictly below `new_reserve_in`
(the floor quotient of the ceiling division is zero, an explicit guard of
`checked_ceil_div`), or the computed take is zero, or the computed give is
zero.  For u64 inputs no other step can overflow or underflow. -/
theorem c2_calc_swap_none_iff (a s d : Nat)
    (ha : a < 2 ^ 64) (hs : s < 2 ^ 64) (hd : d < 2 ^ 64) :
    calc_swap a s d = none ↔
      s + a = 0 ∨ s * d < s + a ∨ spec_take a s d = 0 ∨ spec_give a s d = 0 := by
  rw [calc_swap_eq a s d ha hs hd]
  by_cases hc : s + a = 0 ∨ s * d < s + a ∨ spec_take a s d = 0 ∨
      spec_give a s d = 0
  · rw [if_pos hc]
    exact iff_of_true rfl hc
  · rw [if_neg hc]
    exact iff_of_false (by simp) hc

theorem c2_calc_swap_none_iff_witness :
    (2 : Nat) < 2 ^ 64 ∧
    (calc_swap 2 1 2 = none ↔
      1 + 2 = 0 ∨ 1 * 2 < 1 + 2 ∨ spec_take 2 1 2 = 0 ∨ spec_give 2 1 2 = 0) :=
  ⟨by decide, c2_calc_swap_none_iff 2 1 2 (by decide) (by decide) (by decide)⟩

/-- C2 (counterexample to the claim as stated): at
`amount_in = 2, reserve_in = 1, reserve_out = 2` the code returns none,
yet the take and give computed by the specified algorithm are both 1 and
no step of the specified algorithm (the 128-bit product, the 128-bit sum,
the two subtractions, the narrowings to u64) overflows or underflows:
the none comes from the zero-floor-quotient guard (`K = 2 < 3 = new_in`),
which the claimed iff omits. -/
theorem c2_calc_swap_none_iff_counterexample :
    calc_swap 2 1 2 = none ∧
    spec_take 2 1 2 = 1 ∧ spec_give 2 1 2 = 1 ∧
    1 * 2 < 2 ^ 128 ∧ 1 + 2 < 2 ^ 128 ∧
    1 ≤ spec_new_reserve_in 2 1 2 ∧ spec_new_reserve_out 2 1 2 ≤ 2 ∧
    spec_take 2 1 2 < 2 ^ 64 ∧ spec_give 2 1 2 < 2 ^ 64 := by
  decide

/-- C3: whenever the ceiling-division step of `calc_swap` succeeds on a
128-bit dividend, the returned pair `(q, r)` satisfies:
`q` is the ceiling of `K / new_reserve_in`, the product `q * r` is at
least `K`, and `r` is the least value with that property, so the pair is
the minimal one whose product still reaches `K`. -/
theorem c3_checked_ceil_div_minimal_pair (K n q r : Nat) (hK : K < 2 ^ 128)
    (h : checked_ceil_div K n = some (q, r)) :
    q = ceil_div K n ∧ K ≤ q * r ∧ ∀ r2, K ≤ q * r2 → r ≤ r2 := by
  rw [checked_ceil_div_eq K n hK] at h
  split at h
  · exact absurd h (by simp)
  · rename_i hcond
    push_neg at hcond
    obtain ⟨hn0, hq0⟩ := hcond
    simp only [Option.some.injEq, Prod.mk.injEq] at h
    obtain ⟨hq, hr⟩ := h
    subst hq
    subst hr
    have hqpos : 0 < ceil_div K n :=
      lt_of_lt_of_le (Nat.pos_of_ne_zero hq0) (div_le_ceil_div K n)
    refine ⟨rfl, le_mul_ceil_div K (ceil_div K n) hqpos, ?_⟩
    intro r2 h2
    exact (ceil_div_le_iff K (ceil_div K n) r2 hqpos).mpr h2

theorem c3_checked_ceil_div_minimal_pair_witness :
    checked_ceil_div 150000 600 = some (250, 600) ∧
    (250 = ceil_div 150000 600 ∧ 150000 ≤ 250 * 600 ∧
      ∀ r2, 150000 ≤ 250 * r2 → 600 ≤ r2) :=
  ⟨by decide,
   c3_checked_ceil_div_minimal_pair 150000 600 250 600 (by decide) (by decide)⟩

theorem u64_checked_add_some (a b c : Nat) (h : u64_checked_add a b = some c) :
    c = a + b ∧ a + b < 2 ^ 64 := by
  unfold u64_checked_add at h
  split at h
  · rename_i hc
    simp only [Option.some.injEq] at h
    exact ⟨h.symm, hc⟩
  · exact absurd h (by simp)

theorem u64_checked_sub_some (a b c : Nat) (h : u64_checked_sub a b = some c) :
    c = a - b ∧ b ≤ a := by
  unfold u64_checked_sub at h
  split at h
  · rename_i hc
    simp only [Option.some.injEq] at h
    exact ⟨h.symm, hc⟩
  · exact absurd h (by simp)

theorem u64_from_le_lt (b0 b1 b2 b3 b4 b5 b6 b7 : Fin 256) :
    u64_from_le b0 b1 b2 b3 b4 b5 b6 b7 < 2 ^ 64 := by
  have h0 := b0.isLt
  have h1 := b1.isLt
  have h2 := b2.isLt
  have h3 := b3.isLt
  have h4 := b4.isLt
  have h5 := b5.isLt
  have h6 := b6.isLt
  have h7 := b7.isLt
  unfold u64_from_le
  omega

theorem vault_decode_bounds (data : List (Fin 256)) (v : Vault)
    (h : vault_try_from_slice data = some v) :
    v.token_x_amount < 2 ^ 64 ∧ v.token_y_amount < 2 ^ 64 := by
  unfold vault_try_from_slice at h
  split at h
  · simp only [Option.some.injEq] at h
    subst h
    exact ⟨u64_from_le_lt _ _ _ _ _ _ _ _, u64_from_le_lt _ _ _ _ _ _ _ _⟩
  · exact absurd h (by simp)

theorem vault_roundtrip (v : Vault) (hx : v.token_x_amount < 2 ^ 64)
    (hy : v.token_y_amount < 2 ^ 64) :
    vault_try_from_slice (vault_serialize v) = some v := by
  obtain ⟨x, y⟩ := v
  simp only [vault_serialize, u64_le_bytes, byte_of, List.cons_append,
    List.nil_append, vault_try_from_slice, u64_from_le, Option.some.injEq,
    Vault.mk.injEq]
  simp only at hx hy
  constructor <;> omega

theorem process_init_market_ok_vault (gen : Pubkey → Pubkey → Pda)
    (ax ay : Nat) (accs : InitAccounts) (effs : List Effect)
    (d : List (Fin 256))
    (h : process_init_market gen ax ay accs = ⟨ProcResult.ok, effs, d⟩) :
    d = vault_serialize ⟨ax, ay⟩ := by
  unfold process_init_market at h
  rw [show vault_try_from_slice (List.replicate 16 (0 : Fin 256)) =
      some ⟨0, 0⟩ from rfl] at h
  dsimp only at h
  by_cases c1 : accs.rent_ok = false
  · rw [if_pos c1] at h
    exact absurd (congrArg ProcOut.result h) (by simp)
  rw [if_neg c1] at h
  by_cases c2 : accs.user_owner_token_x.is_signer = false
  · rw [if_pos c2] at h
    exact absurd (congrArg ProcOut.result h) (by simp)
  rw [if_neg c2] at h
  by_cases c3 : accs.user_owner_token_y.is_signer = false
  · rw [if_pos c3] at h
    exact absurd (congrArg ProcOut.result h) (by simp)
  rw [if_neg c3] at h
  by_cases c4 : accs.user_payer.is_signer = false
  · rw [if_pos c4] at h
    exact absurd (congrArg ProcOut.result h) (by simp)
  rw [if_neg c4] at h
  by_cases c5 : accs.minter_x.key = accs.minter_y.key
  · rw [if_pos c5] at h
    exact absurd (congrArg ProcOut.result h) (by simp)
  rw [if_neg c5] at h
  by_cases c6 : accs.pda_owner_token_x.key ≠
      (gen accs.minter_x.key accs.minter_y.key).pda_owner_token_x.1
  · rw [if_pos c6] at h
    exact absurd (congrArg ProcOut.result h) (by simp)
  rw [if_neg c6] at h
  by_cases c7 : accs.pda_owner_token_y.key ≠
      (gen accs.minter_x.key accs.minter_y.key).pda_owner_token_y.1
  · rw [if_pos c7] at h
    exact absurd (congrArg ProcOut.result h) (by simp)
  rw [if_neg c7] at h
  by_cases c8 : accs.pda_token_x.key ≠
      (gen accs.minter_x.key accs.minter_y.key).pda_token_x_pk
  · rw [if_pos c8] at h
    exact absurd (congrArg ProcOut.result h) (by simp)
  rw [if_neg c8] at h
  by_cases c9 : accs.pda_token_y.key ≠
      (gen accs.minter_x.key accs.minter_y.key).pda_token_y_pk
  · rw [if_pos c9] at h
    exact absurd (congrArg ProcOut.result h) (by simp)
  rw [if_neg c9] at h
  by_cases c10 : accs.pda_vault.key ≠
      (gen accs.minter_x.key accs.minter_y.key).vault.1
  · rw [if_pos c10] at h
    exact absurd (congrArg ProcOut.result h) (by simp)
  rw [if_neg c10] at h
  by_cases c11 : ax = 0 ∨ ay = 0
  · rw [if_pos c11] at h
    exact absurd (congrArg ProcOut.result h) (by simp)
  rw [if_neg c11] at h
  by_cases c12 : accs.pda_token_x.data ≠ []
  · rw [if_pos c12] at h
    exact absurd (congrArg ProcOut.result h) (by simp)
  rw [if_neg c12] at h
  by_cases c13 : accs.pda_token_y.data ≠ []
  · rw [if_pos c13] at h
    exact absurd (congrArg ProcOut.result h) (by simp)
  rw [if_neg c13] at h
  by_cases c14 : accs.pda_vault.data ≠ []
  · rw [if_pos c14] at h
    exact absurd (congrArg ProcOut.result h) (by simp)
  rw [if_neg c14] at h
  exact (congrArg ProcOut.vault_data h).symm

/-- C4 (amended): the Swap processor checks the zero-amount precondition
before the vault decode: every Swap invocation whose addresses pass the
derivation checks and whose amount is 0 fails with `AmountZero`, with no
effects and no mutation, regardless of whether the vault decodes — so with
an undecodable vault and amount 0 the error is `AmountZero`, not
`InvalidVault`. -/
theorem c4_swap_amount_zero_before_vault_decode
    (gen : Pubkey → Pubkey → Pda) (minter_pk : Pubkey) (accs : SwapAccounts)
    (hsig : accs.user_owner_token.is_signer = true)
    (hmm : accs.minter_x.key ≠ accs.minter_y.key)
    (hpk : minter_pk = accs.minter_x.key ∨ minter_pk = accs.minter_y.key)
    (g1 : accs.pda_owner_token_x.key =
      (gen accs.minter_x.key accs.minter_y.key).pda_owner_token_x.1)
    (g2 : accs.pda_owner_token_y.key =
      (gen accs.minter_x.key accs.minter_y.key).pda_owner_token_y.1)
    (g3 : accs.pda_token_x.key =
      (gen accs.minter_x.key accs.minter_y.key).pda_token_x_pk)
    (g4 : accs.pda_token_y.key =
      (gen accs.minter_x.key accs.minter_y.key).pda_token_y_pk)
    (g5 : accs.pda_vault.key =
      (gen accs.minter_x.key accs.minter_y.key).vault.1) :
    process_swap gen 0 minter_pk accs =
      ⟨ProcResult.err (ProgramError.Custom AmmError.AmountZero), [],
        accs.pda_vault.data⟩ := by
  unfold process_swap
  dsimp only
  rw [if_neg (by simp [hsig])]
  rw [if_neg hmm]
  rw [if_neg (fun hc => hpk.elim hc.1 hc.2)]
  rw [if_neg (by simp [g1])]
  rw [if_neg (by simp [g2])]
  rw [if_neg (by simp [g3])]
  rw [if_neg (by simp [g4])]
  rw [if_neg (by simp [g5])]
  rw [if_pos rfl]

theorem c4_swap_amount_zero_before_vault_decode_witness :
    process_swap demo_gen 0 4 (demo_swap_accs []) =
      ⟨ProcResult.err (ProgramError.Custom AmmError.AmountZero), [], []⟩ :=
  c4_swap_amount_zero_before_vault_decode demo_gen 4 (demo_swap_accs [])
    (by decide) (by decide) (Or.inl (by decide)) (by decide) (by decide)
    (by decide) (by decide) (by decide)

/-- C4 (counterexample to the claim as stated): a concrete Swap invocation
whose addresses pass derivation, whose vault account data is empty and
does not decode, and whose amount is 0, fails with `AmountZero` and not
with `InvalidVault`: the code checks amount before decoding the vault,
the opposite of the claimed precondition order. -/
theorem c4_swap_precondition_order_counterexample :
    vault_try_from_slice (demo_swap_accs []).pda_vault.data = none ∧
    process_swap demo_gen 0 4 (demo_swap_accs []) =
      ⟨ProcResult.err (ProgramError.Custom AmmError.AmountZero), [], []⟩ ∧
    ProgramError.Custom AmmError.AmountZero ≠
      ProgramError.Custom AmmError.InvalidVault := by
  decide

theorem init_checks_fail_no_effects (gen : Pubkey → Pubkey → Pda)
    (ax ay : Nat) (accs : InitAccounts)
    (hfail : ¬ init_checks_pass gen ax ay accs) :
    ∃ e, process_init_market gen ax ay accs =
      ⟨ProcResult.err e, [], accs.pda_vault.data⟩ := by
  by_cases c1 : accs.rent_ok = false
  · refine ⟨ProgramError.InvalidArgument, ?_⟩
    unfold process_init_market
    dsimp only
    rw [if_pos c1]
  by_cases c2 : accs.user_owner_token_x.is_signer = false
  · refine ⟨ProgramError.MissingRequiredSignature, ?_⟩
    unfold process_init_market
    dsimp only
    rw [if_neg c1, if_pos c2]
  by_cases c3 : accs.user_owner_token_y.is_signer = false
  · refine ⟨ProgramError.MissingRequiredSignature, ?_⟩
    unfold process_init_market
    dsimp only
    rw [if_neg c1, if_neg c2, if_pos c3]
  by_cases c4 : accs.user_payer.is_signer = false
  · refine ⟨ProgramError.MissingRequiredSignature, ?_⟩
    unfold process_init_market
    dsimp only
    rw [if_neg c1, if_neg c2, if_neg c3, if_pos c4]
  by_cases c5 : accs.minter_x.key = accs.minter_y.key
  · refine ⟨ProgramError.Custom AmmError.IdenticalMinter, ?_⟩
    unfold process_init_market
    dsimp only
    rw [if_neg c1, if_neg c2, if_neg c3, if_neg c4, if_pos c5]
  by_cases c6 : accs.pda_owner_token_x.key ≠
      (gen accs.minter_x.key accs.minter_y.key).pda_owner_token_x.1
  · refine ⟨ProgramError.InvalidSeeds, ?_⟩
    unfold process_init_market
    dsimp only
    rw [if_neg c1, if_neg c2, if_neg c3, if_neg c4, if_neg c5, if_pos c6]
  by_cases c7 : accs.pda_owner_token_y.key ≠
      (gen accs.minter_x.key accs.minter_y.key).pda_owner_token_y.1
  · refine ⟨ProgramError.InvalidSeeds, ?_⟩
    unfold process_init_market
    dsimp only
    rw [if_neg c1, if_neg c2, if_neg c3, if_neg c4, if_neg c5, if_neg c6,
      if_pos c7]
  by_cases c8 : accs.pda_token_x.key ≠
      (gen accs.minter_x.key accs.minter_y.key).pda_token_x_pk
  · refine ⟨ProgramError.InvalidSeeds, ?_⟩
    unfold process_init_market
    dsimp only
    rw [if_neg c1, if_neg c2, if_neg c3, if_neg c4, if_neg c5, if_neg c6,
      if_neg c7, if_pos c8]
  by_cases c9 : accs.pda_token_y.key ≠
      (gen accs.minter_x.key accs.minter_y.key).pda_token_y_pk
  · refine ⟨ProgramError.InvalidSeeds, ?_⟩
    unfold process_init_market
    dsimp only
    rw [if_neg c1, if_neg c2, if_neg c3, if_neg c4, if_neg c5, if_neg c6,
      if_neg c7, if_neg c8, if_pos c9]
  by_cases c10 : accs.pda_vault.key ≠
      (gen accs.minter_x.key accs.minter_y.key).vault.1
  · refine ⟨ProgramError.InvalidSeeds, ?_⟩
    unfold process_init_market
    dsimp only
    rw [if_neg c1, if_neg c2, if_neg c3, if_neg c4, if_neg c5, if_neg c6,
      if_neg c7, if_neg c8, if_neg c9, if_pos c10]
  by_cases c11 : ax = 0 ∨ ay = 0
  · refine ⟨ProgramError.Custom AmmError.AmountZero, ?_⟩
    unfold process_init_market
    dsimp only
    rw [if_neg c1, if_neg c2, if_neg c3, if_neg c4, if_neg c5, if_neg c6,
      if_neg c7, if_neg c8, if_neg c9, if_neg c10, if_pos c11]
  exfalso
  apply hfail
  push_neg at c11
  have h1 : accs.rent_ok = true := by
    revert c1
    cases accs.rent_ok <;> simp
  have h2 : accs.user_owner_token_x.is_signer = true := by
    revert c2
    cases accs.user_owner_token_x.is_signer <;> simp
  have h3 : accs.user_owner_token_y.is_signer = true := by
    revert c3
    cases accs.user_owner_token_y.is_signer <;> simp
  have h4 : accs.user_payer.is_signer = true := by
    revert c4
    cases accs.user_payer.is_signer <;> simp
  exact ⟨h1, h2, h3, h4, c5, not_ne_iff.mp c6, not_ne_iff.mp c7,
    not_ne_iff.mp c8, not_ne_iff.mp c9, not_ne_iff.mp c10, c11.1, c11.2⟩

theorem init_holding_x_exists_no_effects (gen : Pubkey → Pubkey → Pda)
    (ax ay : Nat) (accs : InitAccounts)
    (hpass : init_checks_pass gen ax ay accs)
    (hdx : accs.pda_token_x.data ≠ []) :
    process_init_market gen ax ay accs =
      ⟨ProcResult.err (ProgramError.Custom AmmError.AlreadyInUse), [],
        accs.pda_vault.data⟩ := by
  obtain ⟨hr, hs1, hs2, hs3, hmm, g1, g2, g3, g4, g5, hax, hay⟩ := hpass
  unfold process_init_market
  dsimp only
  rw [if_neg (by simp [hr])]
  rw [if_neg (by simp [hs1])]
  rw [if_neg (by simp [hs2])]
  rw [if_neg (by simp [hs3])]
  rw [if_neg hmm]
  rw [if_neg (by simp [g1])]
  rw [if_neg (by simp [g2])]
  rw [if_neg (by simp [g3])]
  rw [if_neg (by simp [g4])]
  rw [if_neg (by simp [g5])]
  rw [if_neg (by push_neg; exact ⟨hax, hay⟩)]
  rw [if_pos hdx]

theorem init_holding_y_exists_one_effect (gen : Pubkey → Pubkey → Pda)
    (ax ay : Nat) (accs : InitAccounts)
    (hpass : init_checks_pass gen ax ay accs)
    (hdx : accs.pda_token_x.data = [])
    (hdy : accs.pda_token_y.data ≠ []) :
    process_init_market gen ax ay accs =
      ⟨ProcResult.err (ProgramError.Custom AmmError.AlreadyInUse),
       [Effect.createAssociatedToken accs.user_payer.key
          accs.pda_owner_token_x.key accs.minter_x.key],
       accs.pda_vault.data⟩ := by
  obtain ⟨hr, hs1, hs2, hs3, hmm, g1, g2, g3, g4, g5, hax, hay⟩ := hpass
  unfold process_init_market
  dsimp only
  rw [if_neg (by simp [hr])]
  rw [if_neg (by simp [hs1])]
  rw [if_neg (by simp [hs2])]
  rw [if_neg (by simp [hs3])]
  rw [if_neg hmm]
  rw [if_neg (by simp [g1])]
  rw [if_neg (by simp [g2])]
  rw [if_neg (by simp [g3])]
  rw [if_neg (by simp [g4])]
  rw [if_neg (by simp [g5])]
  rw [if_neg (by push_neg; exact ⟨hax, hay⟩)]
  rw [if_neg (by simp [hdx])]
  rw [if_pos hdy]

theorem init_vault_exists_four_effects (gen : Pubkey → Pubkey → Pda)
    (ax ay : Nat) (accs : InitAccounts)
    (hpass : init_checks_pass gen ax ay accs)
    (hdx : accs.pda_token_x.data = [])
    (hdy : accs.pda_token_y.data = [])
    (hdv : accs.pda_vault.data ≠ []) :
    process_init_market gen ax ay accs =
      ⟨ProcResult.err (ProgramError.Custom AmmError.AlreadyInUse),
       [Effect.createAssociatedToken accs.user_payer.key
          accs.pda_owner_token_x.key accs.minter_x.key,
        Effect.createAssociatedToken accs.user_payer.key
          accs.pda_owner_token_y.key accs.minter_y.key,
        Effect.transferToken accs.user_token_x.key accs.pda_token_x.key
          accs.user_owner_token_x.key ax false,
        Effect.transferToken accs.user_token_y.key accs.pda_token_y.key
          accs.user_owner_token_y.key ay false],
       accs.pda_vault.data⟩ := by
  obtain ⟨hr, hs1, hs2, hs3, hmm, g1, g2, g3, g4, g5, hax, hay⟩ := hpass
  unfold process_init_market
  dsimp only
  rw [if_neg (by simp [hr])]
  rw [if_neg (by simp [hs1])]
  rw [if_neg (by simp [hs2])]
  rw [if_neg (by simp [hs3])]
  rw [if_neg hmm]
  rw [if_neg (by simp [g1])]
  rw [if_neg (by simp [g2])]
  rw [if_neg (by simp [g3])]
  rw [if_neg (by simp [g4])]
  rw [if_neg (by simp [g5])]
  rw [if_neg (by push_neg; exact ⟨hax, hay⟩)]
  rw [if_neg (by simp [hdx])]
  rw [if_neg (by simp [hdy])]
  rw [if_pos hdv]

/-- C5 (amended): for InitializeMarket, preconditions 1-4 (rent decode,
authorizations, distinct minters, derived-address equality, nonzero
amounts) are checked before any effect — whenever any of them fails the
invocation returns an error having issued no effect and leaving the vault
data unchanged.  The existence checks of precondition 5, however, are
interleaved with effects: holding X is checked just before its creation
(if it exists, `AlreadyInUse` with no effect issued), holding Y is
checked just before its creation (if it exists, `AlreadyInUse` with only
the holding-X creation issued), and the vault only after both holdings
have been created and both deposits transferred, so an `AlreadyInUse`
failure on the vault occurs after two account creations and two token
transfers have been issued (the ledger itself is not written and the
vault data is left unchanged). -/
theorem c5_init_vault_exists_after_effects :
    (∀ gen ax ay (accs : InitAccounts), ¬ init_checks_pass gen ax ay accs →
      ∃ e, process_init_market gen ax ay accs =
        ⟨ProcResult.err e, [], accs.pda_vault.data⟩) ∧
    (∀ gen ax ay (accs : InitAccounts), init_checks_pass gen ax ay accs →
      accs.pda_token_x.data ≠ [] →
      process_init_market gen ax ay accs =
        ⟨ProcResult.err (ProgramError.Custom AmmError.AlreadyInUse), [],
          accs.pda_vault.data⟩) ∧
    (∀ gen ax ay (accs : InitAccounts), init_checks_pass gen ax ay accs →
      accs.pda_token_x.data = [] → accs.pda_token_y.data ≠ [] →
      process_init_market gen ax ay accs =
        ⟨ProcResult.err (ProgramError.Custom AmmError.AlreadyInUse),
         [Effect.createAssociatedToken accs.user_payer.key
            accs.pda_owner_token_x.key accs.minter_x.key],
         accs.pda_vault.data⟩) ∧
    (∀ gen ax ay (accs : InitAccounts), init_checks_pass gen ax ay accs →
      accs.pda_token_x.data = [] → accs.pda_token_y.data = [] →
      accs.pda_vault.data ≠ [] →
      process_init_market gen ax ay accs =
        ⟨ProcResult.err (ProgramError.Custom AmmError.AlreadyInUse),
         [Effect.createAssociatedToken accs.user_payer.key
            accs.pda_owner_token_x.key accs.minter_x.key,
          Effect.createAssociatedToken accs.user_payer.key
            accs.pda_owner_token_y.key accs.minter_y.key,
          Effect.transferToken accs.user_token_x.key accs.pda_token_x.key
            accs.user_owner_token_x.key ax false,
          Effect.transferToken accs.user_token_y.key accs.pda_token_y.key
            accs.user_owner_token_y.key ay false],
         accs.pda_vault.data⟩) :=
  ⟨fun gen ax ay accs hfail =>
     init_checks_fail_no_effects gen ax ay accs hfail,
   fun gen ax ay accs hpass hdx =>
     init_holding_x_exists_no_effects gen ax ay accs hpass hdx,
   fun gen ax ay accs hpass hdx hdy =>
     init_holding_y_exists_one_effect gen ax ay accs hpass hdx hdy,
   fun gen ax ay accs hpass hdx hdy hdv =>
     init_vault_exists_four_effects gen ax ay accs hpass hdx hdy hdv⟩

theorem c5_init_vault_exists_after_effects_witness :
    (∃ e, process_init_market demo_gen 0 300 (demo_init_accs [] [] []) =
      ⟨ProcResult.err e, [], []⟩) ∧
    process_init_market demo_gen 100 300
        (demo_init_accs (List.replicate 165 0) [] []) =
      ⟨ProcResult.err (ProgramError.Custom AmmError.AlreadyInUse), [], []⟩ ∧
    process_init_market demo_gen 100 300
        (demo_init_accs [] (List.replicate 165 0) []) =
      ⟨ProcResult.err (ProgramError.Custom AmmError.AlreadyInUse),
       [Effect.createAssociatedToken 3 8 20], []⟩ ∧
    process_init_market demo_gen 100 300
        (demo_init_accs [] [] (vault_serialize ⟨1, 1⟩)) =
      ⟨ProcResult.err (ProgramError.Custom AmmError.AlreadyInUse),
       [Effect.createAssociatedToken 3 8 20,
        Effect.createAssociatedToken 3 9 21,
        Effect.transferToken 4 6 1 100 false,
        Effect.transferToken 5 7 2 300 false],
       vault_serialize ⟨1, 1⟩⟩ :=
  ⟨c5_init_vault_exists_after_effects.1 demo_gen 0 300
     (demo_init_accs [] [] []) (by decide),
   c5_init_vault_exists_after_effects.2.1 demo_gen 100 300
     (demo_init_accs (List.replicate 165 0) [] []) (by decide) (by decide),
   c5_init_vault_exists_after_effects.2.2.1 demo_gen 100 300
     (demo_init_accs [] (List.replicate 165 0) []) (by decide) (by decide)
     (by decide),
   c5_init_vault_exists_after_effects.2.2.2 demo_gen 100 300
     (demo_init_accs [] [] (vault_serialize ⟨1, 1⟩)) (by decide) (by decide)
     (by decide) (by decide)⟩

/-- C5 (counterexample to the claim as stated): a concrete InitializeMarket
invocation passing preconditions 1-4, with both holdings absent but the
vault already existing, fails with `AlreadyInUse` only after issuing the
two account creations and the two deposit transfers: the vault existence
check is not performed before the effects, so the `AlreadyInUse` failure
on the vault does not precede account creation and token transfers. -/
theorem c5_init_checks_before_effects_counterexample :
    process_init_market demo_gen 100 300
        (demo_init_accs [] [] (vault_serialize ⟨1, 1⟩)) =
      ⟨ProcResult.err (ProgramError.Custom AmmError.AlreadyInUse),
       [Effect.createAssociatedToken 3 8 20,
        Effect.createAssociatedToken 3 9 21,
        Effect.transferToken 4 6 1 100 false,
        Effect.transferToken 5 7 2 300 false],
       vault_serialize ⟨1, 1⟩⟩ ∧
    ([Effect.createAssociatedToken 3 8 20,
      Effect.createAssociatedToken 3 9 21,
      Effect.transferToken 4 6 1 100 false,
      Effect.transferToken 5 7 2 300 false] : List Effect) ≠ [] := by
  decide

/-- C6: after a successful InitializeMarket, invoking InitializeMarket
again on the same market identity (same minters, same derived vault
storage, holding X now existing) fails with `AlreadyInUse`, issues no
effect, leaves the vault data unchanged, and that data is exactly the
record `{amountX, amountY}` written by the first call. -/
theorem c6_init_market_idempotent_guard
    (gen : Pubkey → Pubkey → Pda) (ax ay ax2 ay2 : Nat)
    (accs accs2 : InitAccounts) (effs : List Effect) (d : List (Fin 256))
    (hfirst : process_init_market gen ax ay accs = ⟨ProcResult.ok, effs, d⟩)
    (hmx : accs2.minter_x.key = accs.minter_x.key)
    (hmy : accs2.minter_y.key = accs.minter_y.key)
    (hrent : accs2.rent_ok = true)
    (hs1 : accs2.user_owner_token_x.is_signer = true)
    (hs2 : accs2.user_owner_token_y.is_signer = true)
    (hs3 : accs2.user_payer.is_signer = true)
    (hmm2 : accs2.minter_x.key ≠ accs2.minter_y.key)
    (g1 : accs2.pda_owner_token_x.key =
      (gen accs2.minter_x.key accs2.minter_y.key).pda_owner_token_x.1)
    (g2 : accs2.pda_owner_token_y.key =
      (gen accs2.minter_x.key accs2.minter_y.key).pda_owner_token_y.1)
    (g3 : accs2.pda_token_x.key =
      (gen accs2.minter_x.key accs2.minter_y.key).pda_token_x_pk)
    (g4 : accs2.pda_token_y.key =
      (gen accs2.minter_x.key accs2.minter_y.key).pda_token_y_pk)
    (g5 : accs2.pda_vault.key =
      (gen accs2.minter_x.key accs2.minter_y.key).vault.1)
    (hax2 : ax2 ≠ 0) (hay2 : ay2 ≠ 0)
    (hx2 : accs2.pda_token_x.data ≠ [])
    (hv2 : accs2.pda_vault.data = d) :
    process_init_market gen ax2 ay2 accs2 =
      ⟨ProcResult.err (ProgramError.Custom AmmError.AlreadyInUse), [], d⟩ ∧
    d = vault_serialize ⟨ax, ay⟩ := by
  have hd := process_init_market_ok_vault gen ax ay accs effs d hfirst
  refine ⟨?_, hd⟩
  unfold process_init_market
  dsimp only
  rw [if_neg (by simp [hrent])]
  rw [if_neg (by simp [hs1])]
  rw [if_neg (by simp [hs2])]
  rw [if_neg (by simp [hs3])]
  rw [if_neg hmm2]
  rw [if_neg (by simp [g1])]
  rw [if_neg (by simp [g2])]
  rw [if_neg (by simp [g3])]
  rw [if_neg (by simp [g4])]
  rw [if_neg (by simp [g5])]
  rw [if_neg (by push_neg; exact ⟨hax2, hay2⟩)]
  rw [if_pos hx2]
  rw [hv2]

theorem c6_init_market_idempotent_guard_witness :
    process_init_market demo_gen 100 300
        (demo_init_accs (List.replicate 165 0) []
          (vault_serialize ⟨100, 300⟩)) =
      ⟨ProcResult.err (ProgramError.Custom AmmError.AlreadyInUse), [],
        vault_serialize ⟨100, 300⟩⟩ ∧
    vault_serialize ⟨100, 300⟩ = vault_serialize ⟨100, 300⟩ :=
  c6_init_market_idempotent_guard demo_gen 100 300 100 300
    (demo_init_accs [] [] [])
    (demo_init_accs (List.replicate 165 0) [] (vault_serialize ⟨100, 300⟩))
    [Effect.createAssociatedToken 3 8 20,
     Effect.createAssociatedToken 3 9 21,
     Effect.transferToken 4 6 1 100 false,
     Effect.transferToken 5 7 2 300 false,
     Effect.createVaultAccount 3 10]
    (vault_serialize ⟨100, 300⟩)
    (by decide) (by decide) (by decide) (by decide) (by decide) (by decide)
    (by decide) (by decide) (by decide) (by decide) (by decide) (by decide)
    (by decide) (by decide) (by decide) (by decide) (by decide)

/-- C7: every successful InitializeMarket(amountX, amountY) persists a
Reserve Ledger equal to `{reserve_x: amountX, reserve_y: amountY}`: the
final vault data is the serialization of that record, and decodes back to
it. -/
theorem c7_init_ledger_equals_deposits
    (gen : Pubkey → Pubkey → Pda) (ax ay : Nat) (accs : InitAccounts)
    (effs : List Effect) (d : List (Fin 256))
    (hax : ax < 2 ^ 64) (hay : ay < 2 ^ 64)
    (h : process_init_market gen ax ay accs = ⟨ProcResult.ok, effs, d⟩) :
    d = vault_serialize ⟨ax, ay⟩ ∧ vault_try_from_slice d = some ⟨ax, ay⟩ := by
  have hd := process_init_market_ok_vault gen ax ay accs effs d h
  refine ⟨hd, ?_⟩
  rw [hd]
  exact vault_roundtrip ⟨ax, ay⟩ hax hay

theorem c7_init_ledger_equals_deposits_witness :
    vault_serialize ⟨100, 300⟩ = vault_serialize ⟨100, 300⟩ ∧
    vault_try_from_slice (vault_serialize ⟨100, 300⟩) = some ⟨100, 300⟩ :=
  c7_init_ledger_equals_deposits demo_gen 100 300 (demo_init_accs [] [] [])
    [Effect.createAssociatedToken 3 8 20,
     Effect.createAssociatedToken 3 9 21,
     Effect.transferToken 4 6 1 100 false,
     Effect.transferToken 5 7 2 300 false,
     Effect.createVaultAccount 3 10]
    (vault_serialize ⟨100, 300⟩)
    (by decide) (by decide) (by decide)

/-- C8: `calc_swap 100 500 300` returns take 100 and give 50, and a Swap
of amount 100 selecting asset X on a ledger reading `{500, 300}` succeeds,
transfers 100 in and 50 out, and persists the ledger `{600, 250}`. -/
theorem c8_swap_scenario
    (gen : Pubkey → Pubkey → Pda) (minter_pk : Pubkey) (accs : SwapAccounts)
    (hsig : accs.user_owner_token.is_signer = true)
    (hmm : accs.minter_x.key ≠ accs.minter_y.key)
    (hpk : minter_pk = accs.minter_x.key)
    (g1 : accs.pda_owner_token_x.key =
      (gen accs.minter_x.key accs.minter_y.key).pda_owner_token_x.1)
    (g2 : accs.pda_owner_token_y.key =
      (gen accs.minter_x.key accs.minter_y.key).pda_owner_token_y.1)
    (g3 : accs.pda_token_x.key =
      (gen accs.minter_x.key accs.minter_y.key).pda_token_x_pk)
    (g4 : accs.pda_token_y.key =
      (gen accs.minter_x.key accs.minter_y.key).pda_token_y_pk)
    (g5 : accs.pda_vault.key =
      (gen accs.minter_x.key accs.minter_y.key).vault.1)
    (hvd : vault_try_from_slice accs.pda_vault.data = some ⟨500, 300⟩) :
    calc_swap 100 500 300 = some ⟨100, 50⟩ ∧
    process_swap gen 100 minter_pk accs =
      ⟨ProcResult.ok,
       [Effect.transferToken accs.user_token_x.key accs.pda_token_x.key
          accs.user_owner_token.key 100 false,
        Effect.transferToken accs.pda_token_y.key accs.user_token_y.key
          accs.pda_owner_token_y.key 50 true],
       vault_serialize ⟨600, 250⟩⟩ := by
  have hcalc : calc_swap 100 500 300 = some ⟨100, 50⟩ := by decide
  refine ⟨hcalc, ?_⟩
  unfold process_swap
  dsimp only
  rw [if_neg (by simp [hsig])]
  rw [if_neg hmm]
  rw [if_neg (fun hc => hc.1 hpk)]
  rw [if_neg (by simp [g1])]
  rw [if_neg (by simp [g2])]
  rw [if_neg (by simp [g3])]
  rw [if_neg (by simp [g4])]
  rw [if_neg (by simp [g5])]
  rw [if_neg (by norm_num)]
  rw [hvd]
  dsimp only
  rw [show SwapDirection.new minter_pk accs.minter_x.key accs.minter_y.key =
      some SwapDirection.XtoY from by
    unfold SwapDirection.new
    rw [if_pos hpk]]
  dsimp only
  rw [hcalc]
  dsimp only
  rw [show u64_checked_add 500 100 = some 600 from by decide]
  dsimp only
  rw [show u64_checked_sub 300 50 = some 250 from by decide]

theorem c8_swap_scenario_witness :
    calc_swap 100 500 300 = some ⟨100, 50⟩ ∧
    process_swap demo_gen 100 4 (demo_swap_accs (vault_serialize ⟨500, 300⟩)) =
      ⟨ProcResult.ok,
       [Effect.transferToken 2 6 1 100 false,
        Effect.transferToken 7 3 9 50 true],
       vault_serialize ⟨600, 250⟩⟩ :=
  c8_swap_scenario demo_gen 4 (demo_swap_accs (vault_serialize ⟨500, 300⟩))
    (by decide) (by decide) (by decide) (by decide) (by decide) (by decide)
    (by decide) (by decide) (by decide)

theorem calc_swap_some_bounds (a s d : Nat) (r : SwapResult)
    (ha : a < 2 ^ 64) (hs : s < 2 ^ 64) (hd : d < 2 ^ 64)
    (h : calc_swap a s d = some r) :
    1 ≤ r.take_amount ∧ 1 ≤ r.return_amount ∧ r.return_amount + 1 ≤ d := by
  rw [calc_swap_eq a s d ha hs hd] at h
  split at h
  · exact absurd h (by simp)
  · rename_i hcond
    push_neg at hcond
    obtain ⟨h1, h2, ht, hg⟩ := hcond
    simp only [Option.some.injEq] at h
    subst h
    obtain ⟨hqpos, hqd, hsr, hrn, hK⟩ :=
      calc_swap_bounds a s d h1 (Nat.not_lt.mpr h2)
    refine ⟨Nat.one_le_iff_ne_zero.mpr ht, Nat.one_le_iff_ne_zero.mpr hg, ?_⟩
    show spec_give a s d + 1 ≤ d
    simp only [spec_give]
    omega

theorem process_swap_ok_reserves (gen : Pubkey → Pubkey → Pda)
    (amount : Nat) (minter_pk : Pubkey) (accs : SwapAccounts)
    (effs : List Effect) (d2 : List (Fin 256)) (hamt : amount < 2 ^ 64)
    (h : process_swap gen amount minter_pk accs = ⟨ProcResult.ok, effs, d2⟩) :
    ∃ v2 : Vault, vault_try_from_slice d2 = some v2 ∧
      1 ≤ v2.token_x_amount ∧ 1 ≤ v2.token_y_amount := by
  unfold process_swap at h
  dsimp only at h
  by_cases c1 : accs.user_owner_token.is_signer = false
  · rw [if_pos c1] at h
    exact absurd (congrArg ProcOut.result h) (by simp)
  rw [if_neg c1] at h
  by_cases c2 : accs.minter_x.key = accs.minter_y.key
  · rw [if_pos c2] at h
    exact absurd (congrArg ProcOut.result h) (by simp)
  rw [if_neg c2] at h
  by_cases c3 : minter_pk ≠ accs.minter_x.key ∧ minter_pk ≠ accs.minter_y.key
  · rw [if_pos c3] at h
    exact absurd (congrArg ProcOut.result h) (by simp)
  rw [if_neg c3] at h
  by_cases c4 : accs.pda_owner_token_x.key ≠
      (gen accs.minter_x.key accs.minter_y.key).pda_owner_token_x.1
  · rw [if_pos c4] at h
    exact absurd (congrArg ProcOut.result h) (by simp)
  rw [if_neg c4] at h
  by_cases c5 : accs.pda_owner_token_y.key ≠
      (gen accs.minter_x.key accs.minter_y.key).pda_owner_token_y.1
  · rw [if_pos c5] at h
    exact absurd (congrArg ProcOut.result h) (by simp)
  rw [if_neg c5] at h
  by_cases c6 : accs.pda_token_x.key ≠
      (gen accs.minter_x.key accs.minter_y.key).pda_token_x_pk
  · rw [if_pos c6] at h
    exact absurd (congrArg ProcOut.result h) (by simp)
  rw [if_neg c6] at h
  by_cases c7 : accs.pda_token_y.key ≠
      (gen accs.minter_x.key accs.minter_y.key).pda_token_y_pk
  · rw [if_pos c7] at h
    exact absurd (congrArg ProcOut.result h) (by simp)
  rw [if_neg c7] at h
  by_cases c8 : accs.pda_vault.key ≠
      (gen accs.minter_x.key accs.minter_y.key).vault.1
  · rw [if_pos c8] at h
    exact absurd (congrArg ProcOut.result h) (by simp)
  rw [if_neg c8] at h
  by_cases c9 : amount = 0
  · rw [if_pos c9] at h
    exact absurd (congrArg ProcOut.result h) (by simp)
  rw [if_neg c9] at h
  cases hv : vault_try_from_slice accs.pda_vault.data with
  | none =>
    rw [hv] at h
    exact absurd (congrArg ProcOut.result h) (by simp)
  | some vault =>
    rw [hv] at h
    dsimp only at h
    obtain ⟨hvx, hvy⟩ := vault_decode_bounds accs.pda_vault.data vault hv
    cases hdir : SwapDirection.new minter_pk accs.minter_x.key
        accs.minter_y.key with
    | none =>
      rw [hdir] at h
      exact absurd (congrArg ProcOut.result h) (by simp)
    | some dir =>
      rw [hdir] at h
      cases dir with
      | XtoY =>
        dsimp only at h
        cases hc : calc_swap amount vault.token_x_amount
            vault.token_y_amount with
        | none =>
          rw [hc] at h
          exact absurd (congrArg ProcOut.result h) (by simp)
        | some sr =>
          rw [hc] at h
          dsimp only at h
          cases hadd : u64_checked_add vault.token_x_amount
              sr.take_amount with
          | none =>
            rw [hadd] at h
            exact absurd (congrArg ProcOut.result h) (by simp)
          | some nx =>
            rw [hadd] at h
            dsimp only at h
            cases hsub : u64_checked_sub vault.token_y_amount
                sr.return_amount with
            | none =>
              rw [hsub] at h
              exact absurd (congrArg ProcOut.result h) (by simp)
            | some ny =>
              rw [hsub] at h
              dsimp only at h
              obtain ⟨hb1, hb2, hb3⟩ :=
                calc_swap_some_bounds amount vault.token_x_amount
                  vault.token_y_amount sr hamt hvx hvy hc
              obtain ⟨hae, haeb⟩ := u64_checked_add_some _ _ _ hadd
              obtain ⟨hse, hsle⟩ := u64_checked_sub_some _ _ _ hsub
              have hd2 : d2 = vault_serialize ⟨nx, ny⟩ :=
                (congrArg ProcOut.vault_data h).symm
              refine ⟨⟨nx, ny⟩, ?_, ?_, ?_⟩
              · rw [hd2]
                exact vault_roundtrip ⟨nx, ny⟩ (by show nx < 2 ^ 64; omega)
                  (by show ny < 2 ^ 64; omega)
              · show 1 ≤ nx
                omega
              · show 1 ≤ ny
                omega
      | YtoX =>
        dsimp only at h
        cases hc : calc_swap amount vault.token_y_amount
            vault.token_x_amount with
        | none =>
          rw [hc] at h
          exact absurd (congrArg ProcOut.result h) (by simp)
        | some sr =>
          rw [hc] at h
          dsimp only at h
          cases hadd : u64_checked_add vault.token_y_amount
              sr.take_amount with
          | none =>
            rw [hadd] at h
            exact absurd (congrArg ProcOut.result h) (by simp)
          | some nx =>
            rw [hadd] at h
            dsimp only at h
            cases hsub : u64_checked_sub vault.token_x_amount
                sr.return_amount with
            | none =>
              rw [hsub] at h
              exact absurd (congrArg ProcOut.result h) (by simp)
            | some ny =>
              rw [hsub] at h
              dsimp only at h
              obtain ⟨hb1, hb2, hb3⟩ :=
                calc_swap_some_bounds amount vault.token_y_amount
                  vault.token_x_amount sr hamt hvy hvx hc
              obtain ⟨hae, haeb⟩ := u64_checked_add_some _ _ _ hadd
              obtain ⟨hse, hsle⟩ := u64_checked_sub_some _ _ _ hsub
              have hd2 : d2 = vault_serialize ⟨nx, ny⟩ :=
                (congrArg ProcOut.vault_data h).symm
              refine ⟨⟨nx, ny⟩, ?_, ?_, ?_⟩
              · rw [hd2]
                exact vault_roundtrip ⟨nx, ny⟩ (by show nx < 2 ^ 64; omega)
                  (by show ny < 2 ^ 64; omega)
              · show 1 ≤ nx
                omega
              · show 1 ≤ ny
                omega

/-- C9: every successful `calc_swap` returns take and give of at least 1
with give at most reserve_out minus 1, and every successful Swap persists
vault bytes that decode to a ledger whose two reserves are both at least
1: a swap can never fully drain either persisted reserve. -/
theorem c9_swap_reserves_stay_positive :
    (∀ a s d r, a < 2 ^ 64 → s < 2 ^ 64 → d < 2 ^ 64 →
      calc_swap a s d = some r →
      1 ≤ r.take_amount ∧ 1 ≤ r.return_amount ∧ r.return_amount + 1 ≤ d) ∧
    (∀ gen amount minter_pk accs effs d2, amount < 2 ^ 64 →
      process_swap gen amount minter_pk accs = ⟨ProcResult.ok, effs, d2⟩ →
      ∃ v2 : Vault, vault_try_from_slice d2 = some v2 ∧
        1 ≤ v2.token_x_amount ∧ 1 ≤ v2.token_y_amount) :=
  ⟨fun a s d r ha hs hd h => calc_swap_some_bounds a s d r ha hs hd h,
   fun gen amount minter_pk accs effs d2 hamt h =>
     process_swap_ok_reserves gen amount minter_pk accs effs d2 hamt h⟩

theorem c9_swap_reserves_stay_positive_witness :
    (1 ≤ (100 : Nat) ∧ 1 ≤ (50 : Nat) ∧ 50 + 1 ≤ (300 : Nat)) ∧
    (∃ v2 : Vault, vault_try_from_slice (vault_serialize ⟨600, 250⟩) =
        some v2 ∧ 1 ≤ v2.token_x_amount ∧ 1 ≤ v2.token_y_amount) :=
  ⟨c9_swap_reserves_stay_positive.1 100 500 300 ⟨100, 50⟩ (by decide)
     (by decide) (by decide) (by decide),
   c9_swap_reserves_stay_positive.2 demo_gen 100 4
     (demo_swap_accs (vault_serialize ⟨500, 300⟩))
     [Effect.transferToken 2 6 1 100 false, Effect.transferToken 7 3 9 50 true]
     (vault_serialize ⟨600, 250⟩) (by decide) (by decide)⟩

theorem calc_swap_zero_reserve (a r2 : Nat) :
    calc_swap a 0 r2 = none ∧ calc_swap a r2 0 = none := by
  constructor
  · unfold calc_swap
    rw [show u128_checked_mul 0 r2 = some 0 from by simp [u128_checked_mul]]
    dsimp only
    cases hadd : u128_checked_add 0 a with
    | none => rfl
    | some v =>
      dsimp only
      rw [checked_ceil_div_eq 0 v (by norm_num)]
      rw [if_pos (show v = 0 ∨ 0 / v = 0 from Or.inr (Nat.zero_div v))]
  · unfold calc_swap
    rw [show u128_checked_mul r2 0 = some 0 from by simp [u128_checked_mul]]
    dsimp only
    cases hadd : u128_checked_add r2 a with
    | none => rfl
    | some v =>
      dsimp only
      rw [checked_ceil_div_eq 0 v (by norm_num)]
      rw [if_pos (show v = 0 ∨ 0 / v = 0 from Or.inr (Nat.zero_div v))]

theorem process_swap_zero_reserve (gen : Pubkey → Pubkey → Pda)
    (amount : Nat) (minter_pk : Pubkey) (accs : SwapAccounts) (v : Vault)
    (hsig : accs.user_owner_token.is_signer = true)
    (hmm : accs.minter_x.key ≠ accs.minter_y.key)
    (hpk : minter_pk = accs.minter_x.key ∨ minter_pk = accs.minter_y.key)
    (g1 : accs.pda_owner_token_x.key =
      (gen accs.minter_x.key accs.minter_y.key).pda_owner_token_x.1)
    (g2 : accs.pda_owner_token_y.key =
      (gen accs.minter_x.key accs.minter_y.key).pda_owner_token_y.1)
    (g3 : accs.pda_token_x.key =
      (gen accs.minter_x.key accs.minter_y.key).pda_token_x_pk)
    (g4 : accs.pda_token_y.key =
      (gen accs.minter_x.key accs.minter_y.key).pda_token_y_pk)
    (g5 : accs.pda_vault.key =
      (gen accs.minter_x.key accs.minter_y.key).vault.1)
    (hamt : amount ≠ 0)
    (hvd : vault_try_from_slice accs.pda_vault.data = some v)
    (hzero : v.token_x_amount = 0 ∨ v.token_y_amount = 0) :
    process_swap gen amount minter_pk accs =
      ⟨ProcResult.err (ProgramError.Custom AmmError.CalculatedZeroSwap), [],
        accs.pda_vault.data⟩ := by
  unfold process_swap
  dsimp only
  rw [if_neg (by simp [hsig])]
  rw [if_neg hmm]
  rw [if_neg (fun hc => hpk.elim hc.1 hc.2)]
  rw [if_neg (by simp [g1])]
  rw [if_neg (by simp [g2])]
  rw [if_neg (by simp [g3])]
  rw [if_neg (by simp [g4])]
  rw [if_neg (by simp [g5])]
  rw [if_neg hamt]
  rw [hvd]
  dsimp only
  rcases hpk with hpkx | hpky
  · rw [show SwapDirection.new minter_pk accs.minter_x.key accs.minter_y.key =
        some SwapDirection.XtoY from by
      unfold SwapDirection.new
      rw [if_pos hpkx]]
    dsimp only
    have hnone : calc_swap amount v.token_x_amount v.token_y_amount = none := by
      rcases hzero with hz | hz
      · rw [hz]
        exact (calc_swap_zero_reserve amount v.token_y_amount).1
      · rw [hz]
        exact (calc_swap_zero_reserve amount v.token_x_amount).2
    rw [hnone]
  · have hnx : ¬ minter_pk = accs.minter_x.key := fun hx =>
      hmm (hx.symm.trans hpky)
    rw [show SwapDirection.new minter_pk accs.minter_x.key accs.minter_y.key =
        some SwapDirection.YtoX from by
      unfold SwapDirection.new
      rw [if_neg hnx, if_pos hpky]]
    dsimp only
    have hnone : calc_swap amount v.token_y_amount v.token_x_amount = none := by
      rcases hzero with hz | hz
      · rw [hz]
        exact (calc_swap_zero_reserve amount v.token_y_amount).2
      · rw [hz]
        exact (calc_swap_zero_reserve amount v.token_x_amount).1
    rw [hnone]

/-- C10: `calc_swap` returns none whenever either reserve argument is
zero, for every amount; consequently an otherwise valid Swap against a
ledger with a zero reserve aborts with `CalculatedZeroSwap`, issuing no
effect and leaving the vault data unchanged. -/
theorem c10_zero_reserve_swap_rejected :
    (∀ amount r2, calc_swap amount 0 r2 = none ∧ calc_swap amount r2 0 = none)
    ∧
    (∀ gen amount minter_pk accs v,
      accs.user_owner_token.is_signer = true →
      accs.minter_x.key ≠ accs.minter_y.key →
      (minter_pk = accs.minter_x.key ∨ minter_pk = accs.minter_y.key) →
      accs.pda_owner_token_x.key =
        (gen accs.minter_x.key accs.minter_y.key).pda_owner_token_x.1 →
      accs.pda_owner_token_y.key =
        (gen accs.minter_x.key accs.minter_y.key).pda_owner_token_y.1 →
      accs.pda_token_x.key =
        (gen accs.minter_x.key accs.minter_y.key).pda_token_x_pk →
      accs.pda_token_y.key =
        (gen accs.minter_x.key accs.minter_y.key).pda_token_y_pk →
      accs.pda_vault.key =
        (gen accs.minter_x.key accs.minter_y.key).vault.1 →
      amount ≠ 0 →
      vault_try_from_slice accs.pda_vault.data = some v →
      (v.token_x_amount = 0 ∨ v.token_y_amount = 0) →
      process_swap gen amount minter_pk accs =
        ⟨ProcResult.err (ProgramError.Custom AmmError.CalculatedZeroSwap), [],
          accs.pda_vault.data⟩) :=
  ⟨fun amount r2 => calc_swap_zero_reserve amount r2,
   fun gen amount minter_pk accs v hsig hmm hpk g1 g2 g3 g4 g5 hamt hvd hz =>
     process_swap_zero_reserve gen amount minter_pk accs v hsig hmm hpk
       g1 g2 g3 g4 g5 hamt hvd hz⟩

theorem c10_zero_reserve_swap_rejected_witness :
    (calc_swap 3 0 7 = none ∧ calc_swap 3 7 0 = none) ∧
    process_swap demo_gen 3 4 (demo_swap_accs (vault_serialize ⟨0, 7⟩)) =
      ⟨ProcResult.err (ProgramError.Custom AmmError.CalculatedZeroSwap), [],
        vault_serialize ⟨0, 7⟩⟩ :=
  ⟨c10_zero_reserve_swap_rejected.1 3 7,
   c10_zero_reserve_swap_rejected.2 demo_gen 3 4
     (demo_swap_accs (vault_serialize ⟨0, 7⟩)) ⟨0, 7⟩ (by decide) (by decide)
     (Or.inl (by decide)) (by decide) (by decide) (by decide) (by decide)
     (by decide) (by decide) (by decide) (Or.inl (by decide))⟩
